import Mathlib

/-!
# Verification of the SAC1 training script (`sac1_BipedalWalkerHardcore-v2_frame_stack.py`)

Shallow embedding of the core data structures and update rules of the
Soft Actor-Critic training script, together with proofs of the spec's
claims about them.

Conventions:
* Machine floats are modelled by `ℚ` (the claims under scrutiny are exact
  algebraic identities, orderings and control-flow facts, not rounding facts).
* Numpy arrays become Lean `List`s; in-place writes become `List.set`.
* The random source of `np.random.randint` is an abstract draw function
  `Nat → Nat`; a draw for slot `j` from `[0, high)` is `rng j % high`.
-/

namespace SAC1

/-- Observation vector (one row of `obs1_buf` / `obs2_buf`). -/
abbrev Obs : Type := List ℚ

/-- Action vector (one row of `acts_buf`). -/
abbrev Act : Type := List ℚ

/-- One transition tuple, as passed to `ReplayBuffer.store`
(source line 279: `replay_buffer.store(o, a, r, o2, d)`). -/
structure Transition where
  obs : Obs
  act : Act
  rew : ℚ
  next_obs : Obs
  done : Bool
deriving DecidableEq, Repr

/-- Numpy stores the boolean `done` flag into a float32 buffer
(`self.done_buf[self.ptr] = done`, line 31): `True ↦ 1.0`, `False ↦ 0.0`. -/
def floatOfBool (b : Bool) : ℚ :=
  if b then 1 else 0

/-- The FIFO experience replay buffer (source lines 13–41): five parallel
fixed-length arrays plus cursor `ptr`, logical `size` and capacity `max_size`. -/
structure ReplayBuffer where
  obs1_buf : List Obs
  obs2_buf : List Obs
  acts_buf : List Act
  rews_buf : List ℚ
  done_buf : List ℚ
  ptr : Nat
  size : Nat
  max_size : Nat
deriving Repr

/-- Source `ReplayBuffer.__init__` (lines 18–24): five zero-filled arrays of length
`size`, `ptr = 0`, `size = 0`, `max_size = size`. -/
def ReplayBuffer.init (obs_dim act_dim size : Nat) : ReplayBuffer where
  obs1_buf := List.replicate size (List.replicate obs_dim 0)
  obs2_buf := List.replicate size (List.replicate obs_dim 0)
  acts_buf := List.replicate size (List.replicate act_dim 0)
  rews_buf := List.replicate size 0
  done_buf := List.replicate size 0
  ptr := 0
  size := 0
  max_size := size

/-- Source `ReplayBuffer.store` (lines 26–33): write the transition into slot `ptr`
of each of the five arrays, advance `ptr` modulo `max_size`, grow `size`
saturating at `max_size`. -/
def ReplayBuffer.store (b : ReplayBuffer) (tr : Transition) : ReplayBuffer where
  obs1_buf := b.obs1_buf.set b.ptr tr.obs
  obs2_buf := b.obs2_buf.set b.ptr tr.next_obs
  acts_buf := b.acts_buf.set b.ptr tr.act
  rews_buf := b.rews_buf.set b.ptr tr.rew
  done_buf := b.done_buf.set b.ptr (floatOfBool tr.done)
  ptr := (b.ptr + 1) % b.max_size
  size := min (b.size + 1) b.max_size
  max_size := b.max_size

/-- Iterated `store`, in call order. -/
def ReplayBuffer.storeAll (b : ReplayBuffer) (ts : List Transition) : ReplayBuffer :=
  ts.foldl ReplayBuffer.store b

/-- Models `np.random.randint(0, high, size=n)` (line 36): raises `ValueError` when
`high ≤ 0` (modelled as `none`), otherwise returns `n` independent uniform
draws from `[0, high)` taken from the abstract entropy source `rng`. -/
def randint (high n : Nat) (rng : Nat → Nat) : Option (List Nat) :=
  if high = 0 then none
  else some ((List.range n).map fun j => rng j % high)

/-- The dictionary returned by `sample_batch` (lines 37–41): five parallel
slices of the buffer at the sampled indices. -/
structure Batch where
  obs1 : List Obs
  obs2 : List Obs
  acts : List Act
  rews : List ℚ
  done : List ℚ
deriving Repr

/-- Numpy fancy indexing `buf[idxs]` applied to all five parallel arrays
(lines 37–41): gather the rows at the sampled indices. -/
def ReplayBuffer.gather (b : ReplayBuffer) (idxs : List Nat) : Batch where
  obs1 := idxs.map fun i => b.obs1_buf.getD i []
  obs2 := idxs.map fun i => b.obs2_buf.getD i []
  acts := idxs.map fun i => b.acts_buf.getD i []
  rews := idxs.map fun i => b.rews_buf.getD i 0
  done := idxs.map fun i => b.done_buf.getD i 0

/-- Source `ReplayBuffer.sample_batch` (lines 35–41): draw `batch_size` indices
uniformly from `[0, size)` with replacement, then gather the five parallel
slices.  Fails (propagating numpy's `ValueError`) exactly when `size = 0`. -/
def ReplayBuffer.sample_batch (b : ReplayBuffer) (batch_size : Nat) (rng : Nat → Nat) :
    Option Batch :=
  (randint b.size batch_size rng).map b.gather

/-- State-passing form of the `sample_batch` method: the body (lines 35–41)
assigns no attribute of `self`, so the translated method returns the receiver
as the post-state alongside the sampled batch. -/
def ReplayBuffer.sample_batchS (b : ReplayBuffer) (batch_size : Nat) (rng : Nat → Nat) :
    ReplayBuffer × Option Batch :=
  (b, b.sample_batch batch_size rng)

/-! ## ObjectiveBuilder scalars (source lines 182–194)

These are per-batch-entry scalar computations; the tensors are elementwise,
so one entry is one rational. -/

/-- Source `min_q_pi = tf.minimum(q1_pi_, q2_pi_)` (line 183), per entry. -/
def min_q_pi (q1_pi_t q2_pi_t : ℚ) : ℚ :=
  min q1_pi_t q2_pi_t

/-- Source `v_backup = stop_gradient(min_q_pi - alpha * logp_pi2)` (line 186), per
entry; `stop_gradient` is the identity on values. -/
def v_backup (alpha minq logp_pi2 : ℚ) : ℚ :=
  minq - alpha * logp_pi2

/-- Source `q_backup = r_ph + gamma*(1-d_ph)*v_backup` (line 187), per entry. -/
def q_backup (gamma r d vb : ℚ) : ℚ :=
  r + gamma * (1 - d) * vb

/-! ## Parameter variables and target synchronisation (lines 153–158, 196–225)

Both the `main` and the `target` variable scope are populated by one call to
the same `actor_critic` builder (lines 153–154 and 157–158).  The builder is
the external function-approximator collaborator; per its contract (and the
printed `count_vars` over `main/pi`, `main/q1`, `main/q2`, lines 164–167) it
creates a policy network and two Q-networks, each with trainable parameters.
The target-scope call returns `q1_pi_` and `q2_pi_`, the compositions
`q1(x2, pi(x2))` and `q2(x2, pi(x2))`, so the `target` scope necessarily
contains its own policy network as well.  One `VarId` stands for the
(flattened) parameter tensor of one of these networks; a `GraphState` maps
each of them, plus the scalar `log_alpha`, to its current value. -/

/-- One parameter tensor, flattened to its scalar entries. -/
abbrev Tensor : Type := List ℚ

/-- The trainable variables of the computation graph: the three networks of
the `main` scope, the three networks of the `target` scope, and `log_alpha`. -/
inductive VarId where
  | mainPi
  | mainQ1
  | mainQ2
  | targetPi
  | targetQ1
  | targetQ2
  | logAlphaVar
deriving DecidableEq, Repr

/-- Current value of every graph variable. -/
abbrev GraphState : Type := VarId → Tensor

/-- List `get_vars('main')`, in variable-creation order: pi, q1, q2 (the Adam slot
variables created later also match the substring `'main'`, but they sit after
these in `tf.global_variables()` and are dropped by the `zip` below). -/
def main_vars : List VarId := [.mainPi, .mainQ1, .mainQ2]

/-- List `get_vars('target')`, in variable-creation order: pi, q1, q2. -/
def target_vars : List VarId := [.targetPi, .targetQ1, .targetQ2]

/-- The `(v_main, v_targ)` pairs of `zip(get_vars('main'), get_vars('target'))`
used by both `target_update` (lines 211–212) and `target_init` (lines 224–225). -/
def main_target_pairs : List (VarId × VarId) := main_vars.zip target_vars

/-- Elementwise Polyak average: `polyak*v_targ + (1-polyak)*v_main` (line 211). -/
def polyakAvg (polyak : ℚ) (t m : Tensor) : Tensor :=
  t.zipWith (fun tv mv => polyak * tv + (1 - polyak) * mv) m

/-- A `tf.group` of `tf.assign(v_targ, f v_targ v_main)` over a pair list:
each paired target variable receives `f` of its old value and its main
counterpart; every other variable is untouched. -/
def assignPairs (f : Tensor → Tensor → Tensor) (pairs : List (VarId × VarId))
    (s : GraphState) : GraphState :=
  fun v =>
    match pairs.find? (fun p => p.2 == v) with
    | some p => f (s v) (s p.1)
    | none => s v

/-- Source `target_update` (lines 210–212): Polyak-average every target variable
toward its main counterpart. -/
def target_update (polyak : ℚ) (s : GraphState) : GraphState :=
  assignPairs (polyakAvg polyak) main_target_pairs s

/-- Source `target_init` (lines 223–225): copy every main variable onto its target
counterpart. -/
def target_init (s : GraphState) : GraphState :=
  assignPairs (fun _t m => m) main_target_pairs s

/-- Both scopes are built by the same `actor_critic` call, so corresponding
tensors have equal shapes (here: equal lengths). -/
def WellShaped (s : GraphState) : Prop :=
  (s .targetPi).length = (s .mainPi).length ∧
  (s .targetQ1).length = (s .mainQ1).length ∧
  (s .targetQ2).length = (s .mainQ2).length

/-- The `var_list` of `pi_optimizer.minimize` — `get_vars('main/pi')` (line 199). -/
def pi_var_list : List VarId := [.mainPi]

/-- The `var_list` of `value_optimizer.minimize` — `get_vars('main/q')`, i.e. both
Q-networks (lines 204–206). -/
def value_var_list : List VarId := [.mainQ1, .mainQ2]

/-- The `var_list` of `alpha_optimizer.minimize` — `[log_alpha]` (line 179). -/
def alpha_var_list : List VarId := [.logAlphaVar]

/-- One gradient-descent optimizer step: subtract an update `delta` from each
variable of its `var_list`, elementwise; variables outside the list are
untouched.  (The exact `delta` an optimizer computes is irrelevant here.) -/
def optimizer_step (var_list : List VarId) (delta : VarId → Tensor)
    (s : GraphState) : GraphState :=
  fun v => if v ∈ var_list then (s v).zipWith (fun x dx => x - dx) (delta v) else s v

/-- Is this variable part of the `target` scope? -/
def isTargetVar : VarId → Bool
  | .targetPi | .targetQ1 | .targetQ2 => true
  | _ => false

/-! ## Update ordering in one `sess.run(step_ops)` call (lines 196–220) -/

/-- The three parameter-mutating operations of `step_ops` that carry control
dependencies (lines 199, 205–206, 210–212). -/
inductive StepOp where
  | train_pi_op
  | train_value_op
  | target_update_op
deriving DecidableEq, Repr

/-- The three update operations, as listed in `step_ops` (lines 216–220). -/
def update_ops : List StepOp := [.train_pi_op, .train_value_op, .target_update_op]

/-- The control-dependency edges declared in the graph:
`with tf.control_dependencies([train_pi_op])` around `train_value_op`
(lines 205–206) and `with tf.control_dependencies([train_value_op])` around
`target_update` (lines 210–211).  `(a, b)` means `b` may start only after `a`
has completed. -/
def control_deps : List (StepOp × StepOp) :=
  [(.train_pi_op, .train_value_op), (.train_value_op, .target_update_op)]

/-- A possible execution order of the three update ops inside one
`sess.run(step_ops)` call: a linearization of the ops that respects every
declared control dependency.  TensorFlow may evaluate ops without an edge
between them in any order (even concurrently), but every execution
linearizes to such a schedule; a declared edge is a hard barrier. -/
def ValidSchedule (l : List StepOp) : Prop :=
  l.Perm update_ops ∧ ∀ p ∈ control_deps, l.indexOf p.1 < l.indexOf p.2

/-! ## Automatic temperature tuning (lines 170–179) -/

/-- Source `target_entropy = -np.prod(env.action_space.shape)` (line 171). -/
def target_entropy (act_dim : Nat) : ℚ := -(act_dim : ℚ)

/-- The `log_alpha` variable is created with `initializer=1.0` (line 173). -/
def log_alpha_init : ℚ := 1

/-- Mean `tf.reduce_mean` over a flat tensor. -/
def mean (l : List ℚ) : ℚ := l.sum / l.length

/-- Source `alpha_loss = reduce_mean(-log_alpha * stop_gradient(logp_pi + target_entropy))`
(line 176); `stop_gradient` is the identity on values. -/
def alpha_loss (log_alpha : ℚ) (logp_pi : List ℚ) (te : ℚ) : ℚ :=
  mean (logp_pi.map fun lp => -log_alpha * (lp + te))

/-- Gradient of `alpha_loss` in `log_alpha`: the stopped bracket is a
constant, so the loss is linear in `log_alpha` with this slope. -/
def alpha_grad (logp_pi : List ℚ) (te : ℚ) : ℚ :=
  mean (logp_pi.map fun lp => -(lp + te))

/-- The very first update applied by `tf.train.AdamOptimizer` to a scalar with
gradient `g` (all moment slots start at zero):
`Δ = lr·√(1-β₂)·g / (√(1-β₂)·|g| + ε)`.  The irrational constant `√(1-β₂)`
is passed in as `s > 0` (for TF defaults, `s = √0.001`). -/
def adam_first_delta (lr s eps g : ℚ) : ℚ :=
  lr * s * g / (s * |g| + eps)

/-- Value of `log_alpha` after `train_alpha_op` (line 179) has run exactly once
from the freshly initialized state. -/
def log_alpha_after_one_step (logp_pi : List ℚ) (te lr s eps : ℚ) : ℚ :=
  log_alpha_init - adam_first_delta lr s eps (alpha_grad logp_pi te)

/-! ## Action selection and the main loop body (lines 256–307) -/

/-- Where the executed action comes from. -/
inductive ActionSource where
  | policySample
  | uniformRandom
deriving DecidableEq, Repr

/-- Lines 263–266: `if t > start_steps: a = get_action(o) else:
a = env.action_space.sample()`, at 0-based global step `t`. -/
def action_source (start_steps t : Nat) : ActionSource :=
  if t > start_steps then .policySample else .uniformRandom

/-- Number of uniform-random action steps among global steps `0, …, T-1`. -/
def random_step_count (start_steps T : Nat) : Nat :=
  ((List.range T).filter fun t => action_source start_steps t == .uniformRandom).length

/-- The black-box environment collaborator: `reset()` and `step(action)`. -/
structure EnvModel where
  reset : Obs
  step : Obs → Act → Obs × ℚ × Bool

/-- The black-box agent collaborator: `get_action(o)` (a policy sample, line
264) and the action-space sampler draw at global step `t` (line 266). -/
structure AgentModel where
  get_action : Obs → Act
  sample : Nat → Act

/-- Observable effects of one main-loop iteration, in program order. -/
inductive Event where
  | envStep
  | storeTransition
  | sampleBatch
  | gradientUpdateCycle
  | envReset
deriving DecidableEq, Repr

/-- Trace of one iteration of the training burst (lines 292–304): draw one
fresh batch from the replay buffer, then run `step_ops` once. -/
def cycleTrace : List Event := [.sampleBatch, .gradientUpdateCycle]

/-- Mutable per-episode state of the main loop. -/
structure LoopState where
  o : Obs
  ep_ret : ℚ
  ep_len : Nat
  buf : ReplayBuffer

/-- One iteration of the main loop (lines 256–307) at global step `t`: select
an action, step the environment, store the transition, and — when the episode
has ended (`d or ep_len == max_ep_len_train`, line 286) — run `ep_len`
gradient-update cycles (lines 292–304) and reset the environment (line 307).
Returns the post-state and the trace of effects, in order. -/
def loopBody (env : EnvModel) (ag : AgentModel) (start_steps max_ep_len_train : Nat)
    (t : Nat) (s : LoopState) : LoopState × List Event :=
  let a := if t > start_steps then ag.get_action s.o else ag.sample t
  let res := env.step s.o a
  let o2 := res.1
  let r := res.2.1
  let d := res.2.2
  let ep_ret := s.ep_ret + r
  let ep_len := s.ep_len + 1
  let buf := s.buf.store ⟨s.o, a, r, o2, d⟩
  if d || (ep_len == max_ep_len_train) then
    ({ o := env.reset, ep_ret := 0, ep_len := 0, buf := buf },
      [.envStep, .storeTransition] ++ (List.replicate ep_len cycleTrace).flatten ++ [.envReset])
  else
    ({ o := o2, ep_ret := ep_ret, ep_len := ep_len, buf := buf },
      [.envStep, .storeTransition])

/-! ## Ring-buffer contents after a sequence of stores -/

/-- Slot `j` of all five parallel arrays holds exactly transition `tr`. -/
def ReplayBuffer.slotHolds (b : ReplayBuffer) (j : Nat) (tr : Transition) : Prop :=
  b.obs1_buf[j]? = some tr.obs ∧
  b.obs2_buf[j]? = some tr.next_obs ∧
  b.acts_buf[j]? = some tr.act ∧
  b.rews_buf[j]? = some tr.rew ∧
  b.done_buf[j]? = some (floatOfBool tr.done)

/-- Ring-buffer invariant tying a buffer of capacity `N` to the list `hist` of
all transitions stored into it so far (in order): the cursor has advanced
`hist.length` times modulo `N`, the logical size saturates at `N`, the five
arrays keep their length, and every one of the most recent `N` transitions
sits in its slot `i % N`. -/
def ReplayBuffer.Inv (N : Nat) (hist : List Transition) (b : ReplayBuffer) : Prop :=
  b.max_size = N ∧
  b.ptr = hist.length % N ∧
  b.size = min hist.length N ∧
  b.obs1_buf.length = N ∧
  b.obs2_buf.length = N ∧
  b.acts_buf.length = N ∧
  b.rews_buf.length = N ∧
  b.done_buf.length = N ∧
  ∀ i, (hi : i < hist.length) → hist.length ≤ i + N →
    b.slotHolds (i % N) (hist.get ⟨i, hi⟩)

/-! ## Concrete instances used by the witness theorems -/

/-- A concrete one-dimensional transition with payload `n`. -/
def trWit (n : ℚ) : Transition :=
  { obs := [n], act := [n + 1], rew := n + 2, next_obs := [n + 3], done := false }

/-- A concrete well-shaped graph state. -/
def sShaped : GraphState := fun v =>
  match v with
  | .mainPi => [3]
  | .mainQ1 => [7]
  | .mainQ2 => [13]
  | .targetPi => [5]
  | .targetQ1 => [11]
  | .targetQ2 => [17]
  | .logAlphaVar => [1]

/-- A concrete optimizer update. -/
def deltaWit : VarId → Tensor := fun _ => [1]

/-- A concrete environment that terminates on every step. -/
def envWit : EnvModel :=
  { reset := [0], step := fun _ _ => ([1], 1, true) }

/-- A concrete agent. -/
def agWit : AgentModel :=
  { get_action := fun _ => [0], sample := fun _ => [0] }

/-- A concrete loop state two steps into an episode. -/
def sWitLoop : LoopState :=
  { o := [0], ep_ret := 0, ep_len := 2, buf := ReplayBuffer.init 1 1 4 }

/-! ## Helper lemmas -/

theorem mod_ne_of_between (i L N : Nat) (h1 : i < L) (h2 : L < i + N) :
    i % N ≠ L % N := by
  intro h
  have hdvd : N ∣ L - i := (Nat.modEq_iff_dvd' h1.le).mp h
  have := Nat.le_of_dvd (by omega) hdvd
  omega

theorem ReplayBuffer.store_step {N : Nat} {hist : List Transition} {b : ReplayBuffer}
    (hN : 0 < N) (h : ReplayBuffer.Inv N hist b) (t : Transition) :
    ReplayBuffer.Inv N (hist ++ [t]) (b.store t) := by
  obtain ⟨hms, hptr, hsz, hl1, hl2, hl3, hl4, hl5, hslots⟩ := h
  have hptrlt : b.ptr < N := by rw [hptr]; exact Nat.mod_lt _ hN
  refine ⟨hms, ?_, ?_, ?_, ?_, ?_, ?_, ?_, ?_⟩
  · show (b.ptr + 1) % b.max_size = (hist ++ [t]).length % N
    simp only [hms, hptr, List.length_append, List.length_singleton]
    exact Nat.mod_add_mod _ _ _
  · show min (b.size + 1) b.max_size = min (hist ++ [t]).length N
    simp only [hms, hsz, List.length_append, List.length_singleton]
    omega
  · show (b.obs1_buf.set b.ptr t.obs).length = N
    rw [List.length_set]; exact hl1
  · show (b.obs2_buf.set b.ptr t.next_obs).length = N
    rw [List.length_set]; exact hl2
  · show (b.acts_buf.set b.ptr t.act).length = N
    rw [List.length_set]; exact hl3
  · show (b.rews_buf.set b.ptr t.rew).length = N
    rw [List.length_set]; exact hl4
  · show (b.done_buf.set b.ptr (floatOfBool t.done)).length = N
    rw [List.length_set]; exact hl5
  · intro i hi hle
    have hi' : i < hist.length + 1 := by
      simpa using hi
    have hle' : hist.length + 1 ≤ i + N := by
      simpa using hle
    by_cases hiL : i = hist.length
    · subst hiL
      have hget : (hist ++ [t]).get ⟨hist.length, hi⟩ = t := by
        simp [List.get_eq_getElem, List.getElem_concat_length]
      rw [hget]
      have hlt1 : b.ptr < b.obs1_buf.length := by rw [hl1]; exact hptrlt
      have hlt2 : b.ptr < b.obs2_buf.length := by rw [hl2]; exact hptrlt
      have hlt3 : b.ptr < b.acts_buf.length := by rw [hl3]; exact hptrlt
      have hlt4 : b.ptr < b.rews_buf.length := by rw [hl4]; exact hptrlt
      have hlt5 : b.ptr < b.done_buf.length := by rw [hl5]; exact hptrlt
      refine ⟨?_, ?_, ?_, ?_, ?_⟩ <;>
        · show _ = _
          rw [← hptr]
          exact List.getElem?_set_eq_of_lt _ (by assumption)
    · have hilt : i < hist.length := by omega
      have hne : b.ptr ≠ i % N := by
        rw [hptr]
        exact (mod_ne_of_between i hist.length N hilt (by omega)).symm
      have hget : (hist ++ [t]).get ⟨i, hi⟩ = hist.get ⟨i, hilt⟩ := by
        simp [List.get_eq_getElem, List.getElem_append_left hilt]
      rw [hget]
      obtain ⟨o1, o2, a2, r2, d2⟩ := hslots i hilt (by omega)
      refine ⟨?_, ?_, ?_, ?_, ?_⟩ <;>
        · show (List.set _ b.ptr _)[i % N]? = _
          rw [List.getElem?_set_ne hne]
          first
          | exact o1
          | exact o2
          | exact a2
          | exact r2
          | exact d2

theorem ReplayBuffer.storeAll_inv {N : Nat} (hN : 0 < N) (ts : List Transition) :
    ∀ {hist : List Transition} {b : ReplayBuffer}, ReplayBuffer.Inv N hist b →
      ReplayBuffer.Inv N (hist ++ ts) (b.storeAll ts) := by
  induction ts with
  | nil =>
    intro hist b h
    simpa [ReplayBuffer.storeAll] using h
  | cons t ts ih =>
    intro hist b h
    have h2 := ih (ReplayBuffer.store_step hN h t)
    simpa [ReplayBuffer.storeAll, List.append_assoc] using h2

theorem ReplayBuffer.init_inv (obs_dim act_dim N : Nat) :
    ReplayBuffer.Inv N [] (ReplayBuffer.init obs_dim act_dim N) := by
  refine ⟨rfl, ?_, ?_, ?_, ?_, ?_, ?_, ?_, ?_⟩
  · simp [ReplayBuffer.init]
  · simp [ReplayBuffer.init]
  · simp [ReplayBuffer.init]
  · simp [ReplayBuffer.init]
  · simp [ReplayBuffer.init]
  · simp [ReplayBuffer.init]
  · simp [ReplayBuffer.init]
  · intro i hi hle
    simp at hi

theorem polyakAvg_one (t m : Tensor) (h : t.length ≤ m.length) : polyakAvg 1 t m = t := by
  induction t generalizing m with
  | nil => rfl
  | cons a t ih =>
    cases m with
    | nil => simp at h
    | cons b m =>
      have ht := ih m (by simpa using h)
      simp only [polyakAvg, List.zipWith_cons_cons] at ht ⊢
      rw [ht]
      norm_num

theorem polyakAvg_zero (t m : Tensor) (h : m.length ≤ t.length) : polyakAvg 0 t m = m := by
  induction t generalizing m with
  | nil =>
    cases m with
    | nil => rfl
    | cons b m => simp at h
  | cons a t ih =>
    cases m with
    | nil => rfl
    | cons b m =>
      have ht := ih m (by simpa using h)
      simp only [polyakAvg, List.zipWith_cons_cons] at ht ⊢
      rw [ht]
      norm_num

/-! ## Claim theorems -/

/-- C2: per batch entry, the regression target is
`q_backup = reward + gamma * (1 - terminal) * v_backup`; with `terminal = true`
(stored as the float `1.0`) the target collapses to `reward` alone and is
independent of the backed-up value — the coefficient of `v_backup` is exactly
zero. -/
theorem q_backup_terminal_zeroes_bootstrap (gamma r d vb vb' : ℚ) :
    q_backup gamma r d vb = r + gamma * (1 - d) * vb ∧
    q_backup gamma r (floatOfBool true) vb = r ∧
    q_backup gamma r (floatOfBool true) vb = q_backup gamma r (floatOfBool true) vb' := by
  refine ⟨rfl, ?_, ?_⟩ <;> simp [q_backup, floatOfBool]

/-- C5: storing a sequence of `k` transitions into a fresh buffer of capacity
`N > 0` always succeeds and leaves: `size = min k N` (so `size = k` while
`k ≤ N`, saturating at `N`), the cursor advanced to `k % N`, all five parallel
arrays still of length `N`, and each of the most recent `N` transitions (those
`i` with `k ≤ i + N`) sitting in slot `i % N` of all five arrays — the oldest
entries having been overwritten first. -/
theorem replay_store_ring_buffer_spec (obs_dim act_dim N : Nat) (ts : List Transition)
    (hN : 0 < N) :
    let b := (ReplayBuffer.init obs_dim act_dim N).storeAll ts
    b.max_size = N ∧
    b.ptr = ts.length % N ∧
    b.size = min ts.length N ∧
    b.obs1_buf.length = N ∧
    b.obs2_buf.length = N ∧
    b.acts_buf.length = N ∧
    b.rews_buf.length = N ∧
    b.done_buf.length = N ∧
    ∀ i, (hi : i < ts.length) → ts.length ≤ i + N →
      b.slotHolds (i % N) (ts.get ⟨i, hi⟩) := by
  have h := ReplayBuffer.storeAll_inv hN ts (ReplayBuffer.init_inv obs_dim act_dim N)
  rw [List.nil_append] at h
  exact h

theorem replay_store_ring_buffer_spec_witness :
    (0 : Nat) < 2 ∧
    ((ReplayBuffer.init 1 1 2).storeAll [trWit 10, trWit 20, trWit 30]).size = min 3 2 ∧
    ((ReplayBuffer.init 1 1 2).storeAll [trWit 10, trWit 20, trWit 30]).ptr = 3 % 2 ∧
    ((ReplayBuffer.init 1 1 2).storeAll [trWit 10, trWit 20, trWit 30]).slotHolds (2 % 2)
      ([trWit 10, trWit 20, trWit 30].get ⟨2, by norm_num⟩) := by
  have h := replay_store_ring_buffer_spec 1 1 2 [trWit 10, trWit 20, trWit 30] (by norm_num)
  exact ⟨by norm_num, h.2.2.1, h.2.1, h.2.2.2.2.2.2.2.2 2 (by norm_num) (by norm_num)⟩

/-- C9: `sample_batch` fails (numpy raises on an empty index range) exactly
when the buffer is empty, and for `size > 0` it always returns a batch whose
five fields all have length `batch_size`. -/
theorem sample_batch_empty_fails_nonempty_succeeds (b : ReplayBuffer) (batch_size : Nat)
    (rng : Nat → Nat) :
    (b.size = 0 → b.sample_batch batch_size rng = none) ∧
    (0 < b.size → ∃ batch : Batch,
        b.sample_batch batch_size rng = some batch ∧
        batch.obs1.length = batch_size ∧ batch.obs2.length = batch_size ∧
        batch.acts.length = batch_size ∧ batch.rews.length = batch_size ∧
        batch.done.length = batch_size) := by
  constructor
  · intro h
    simp [ReplayBuffer.sample_batch, randint, h]
  · intro h
    refine ⟨b.gather ((List.range batch_size).map fun j => rng j % b.size),
            ?_, ?_, ?_, ?_, ?_, ?_⟩
    · simp [ReplayBuffer.sample_batch, randint, Nat.pos_iff_ne_zero.mp h]
    all_goals simp [ReplayBuffer.gather]

theorem sample_batch_empty_fails_nonempty_succeeds_witness :
    ((ReplayBuffer.init 1 1 2).sample_batch 3 (fun _ => 0) = none) ∧
    (((ReplayBuffer.init 1 1 2).store (trWit 1)).sample_batch 3 (fun _ => 0)).isSome = true := by
  constructor
  · exact (sample_batch_empty_fails_nonempty_succeeds (ReplayBuffer.init 1 1 2) 3
      (fun _ => 0)).1 rfl
  · obtain ⟨batch, hb, -⟩ := (sample_batch_empty_fails_nonempty_succeeds
      ((ReplayBuffer.init 1 1 2).store (trWit 1)) 3 (fun _ => 0)).2 (by decide)
    simp [hb]

/-- C10: `sample_batch` is read-only — in state-passing form the post-state
keeps the cursor, the logical size, the capacity and the contents of all five
parallel arrays of the receiver unchanged, for every buffer with `size > 0`
and every batch size. -/
theorem sample_batch_preserves_buffer (b : ReplayBuffer) (batch_size : Nat)
    (rng : Nat → Nat) (h : 0 < b.size) :
    (b.sample_batchS batch_size rng).1.ptr = b.ptr ∧
    (b.sample_batchS batch_size rng).1.size = b.size ∧
    (b.sample_batchS batch_size rng).1.max_size = b.max_size ∧
    (b.sample_batchS batch_size rng).1.obs1_buf = b.obs1_buf ∧
    (b.sample_batchS batch_size rng).1.obs2_buf = b.obs2_buf ∧
    (b.sample_batchS batch_size rng).1.acts_buf = b.acts_buf ∧
    (b.sample_batchS batch_size rng).1.rews_buf = b.rews_buf ∧
    (b.sample_batchS batch_size rng).1.done_buf = b.done_buf :=
  ⟨rfl, rfl, rfl, rfl, rfl, rfl, rfl, rfl⟩

/-- C3: with equal tensor shapes between corresponding main and target
variables (guaranteed because both scopes come from the same builder):
immediately after `target_init` every paired target tensor equals its main
counterpart exactly; one Polyak step with `polyak = 1` leaves every variable
of the graph unchanged; one Polyak step with `polyak = 0` sets every paired
target tensor to its main counterpart exactly — elementwise
`target ← polyak * target + (1 - polyak) * main`. -/
theorem target_init_polyak_endpoints (s : GraphState) (hs : WellShaped s) :
    (∀ p ∈ main_target_pairs, target_init s p.2 = s p.1) ∧
    (∀ v, target_update 1 s v = s v) ∧
    (∀ p ∈ main_target_pairs, target_update 0 s p.2 = s p.1) := by
  obtain ⟨h1, h2, h3⟩ := hs
  refine ⟨?_, ?_, ?_⟩
  · intro p hp
    simp only [main_target_pairs, main_vars, target_vars, List.zip_cons_cons,
      List.zip_nil_right, List.mem_cons, List.not_mem_nil, or_false] at hp
    rcases hp with rfl | rfl | rfl <;> rfl
  · intro v
    cases v
    case targetPi => exact polyakAvg_one _ _ h1.le
    case targetQ1 => exact polyakAvg_one _ _ h2.le
    case targetQ2 => exact polyakAvg_one _ _ h3.le
    all_goals rfl
  · intro p hp
    simp only [main_target_pairs, main_vars, target_vars, List.zip_cons_cons,
      List.zip_nil_right, List.mem_cons, List.not_mem_nil, or_false] at hp
    rcases hp with rfl | rfl | rfl
    · exact polyakAvg_zero _ _ h1.ge
    · exact polyakAvg_zero _ _ h2.ge
    · exact polyakAvg_zero _ _ h3.ge

theorem target_init_polyak_endpoints_witness :
    target_init sShaped .targetPi = sShaped .mainPi ∧
    target_update 1 sShaped .targetQ1 = sShaped .targetQ1 ∧
    target_update 0 sShaped .targetQ2 = sShaped .mainQ2 :=
  ⟨(target_init_polyak_endpoints sShaped ⟨rfl, rfl, rfl⟩).1 (.mainPi, .targetPi) (by decide),
   (target_init_polyak_endpoints sShaped ⟨rfl, rfl, rfl⟩).2.1 .targetQ1,
   (target_init_polyak_endpoints sShaped ⟨rfl, rfl, rfl⟩).2.2 (.mainQ2, .targetQ2) (by decide)⟩

/-- C4 counterexample: the claim says the target parameter set consists of the
two Q-networks only, with no target policy parameters.  In the code the
`target` scope is populated by a full `actor_critic` call (lines 157–158), so
`get_vars('target')` starts with the target policy network, the zip of
lines 211–212 pairs it with `main/pi`, and the Polyak step genuinely moves it:
on the concrete state `sShaped` (target policy tensor `[5]`, main policy
tensor `[3]`), one `target_update` with `polyak = 1/2` changes the target
policy tensor. -/
theorem target_scope_contains_policy_params :
    VarId.targetPi ∈ target_vars ∧
    isTargetVar .targetPi = true ∧
    (VarId.mainPi, VarId.targetPi) ∈ main_target_pairs ∧
    target_update (1/2) sShaped .targetPi ≠ sShaped .targetPi := by
  refine ⟨by decide, rfl, by decide, ?_⟩
  show polyakAvg (1/2) (sShaped .targetPi) (sShaped .mainPi) ≠ sShaped .targetPi
  norm_num [polyakAvg, sShaped]

/-- C4 (amended): the target parameter set mirrors the full main set — the
zip of `get_vars('main')` with `get_vars('target')` pairs the policy network
and both Q-networks of the two scopes positionally — and target parameters
are mutated only by the initialization copy and the Polyak step: no
gradient-descent optimizer `var_list` (`main/pi` for the policy step,
`main/q` for the value step, `[log_alpha]` for the temperature step) contains
a target variable, so an optimizer step leaves every target variable
unchanged. -/
theorem target_params_full_mirror_and_no_grad_step (s : GraphState)
    (delta : VarId → Tensor) (v : VarId) (hv : isTargetVar v = true) :
    main_target_pairs.map Prod.fst = main_vars ∧
    main_target_pairs.map Prod.snd = target_vars ∧
    v ∉ pi_var_list ∧ v ∉ value_var_list ∧ v ∉ alpha_var_list ∧
    optimizer_step pi_var_list delta s v = s v ∧
    optimizer_step value_var_list delta s v = s v ∧
    optimizer_step alpha_var_list delta s v = s v := by
  cases v <;> simp_all [isTargetVar, optimizer_step, pi_var_list, value_var_list,
    alpha_var_list, main_target_pairs, main_vars, target_vars]

theorem target_params_full_mirror_and_no_grad_step_witness :
    isTargetVar .targetQ1 = true ∧
    optimizer_step pi_var_list deltaWit sShaped .targetQ1 = sShaped .targetQ1 ∧
    optimizer_step value_var_list deltaWit sShaped .targetQ1 = sShaped .targetQ1 ∧
    optimizer_step alpha_var_list deltaWit sShaped .targetQ1 = sShaped .targetQ1 :=
  ⟨rfl,
   (target_params_full_mirror_and_no_grad_step sShaped deltaWit .targetQ1 rfl).2.2.2.2.2.1,
   (target_params_full_mirror_and_no_grad_step sShaped deltaWit .targetQ1 rfl).2.2.2.2.2.2.1,
   (target_params_full_mirror_and_no_grad_step sShaped deltaWit .targetQ1 rfl).2.2.2.2.2.2.2⟩

theorem sample_batch_preserves_buffer_witness :
    (((ReplayBuffer.init 1 1 2).store (trWit 1)).sample_batchS 3 (fun _ => 0)).1.ptr
      = ((ReplayBuffer.init 1 1 2).store (trWit 1)).ptr ∧
    (((ReplayBuffer.init 1 1 2).store (trWit 1)).sample_batchS 3 (fun _ => 0)).1.size
      = ((ReplayBuffer.init 1 1 2).store (trWit 1)).size := by
  have h := sample_batch_preserves_buffer ((ReplayBuffer.init 1 1 2).store (trWit 1)) 3
    (fun _ => 0) (by decide)
  exact ⟨h.1, h.2.1⟩

/-- C1: every execution order of one `sess.run(step_ops)` call that respects
the declared control dependencies runs the three update operations in exactly
the order policy step, value step, target Polyak update — in particular no
value or target update precedes (or can be interleaved before) the policy
update within a cycle. -/
theorem control_dependencies_force_update_order (l : List StepOp) (h : ValidSchedule l) :
    l = [.train_pi_op, .train_value_op, .target_update_op] := by
  obtain ⟨hperm, hdep⟩ := h
  have hlen : l.length = 3 := hperm.length_eq
  obtain ⟨x, y, z, rfl⟩ := List.length_eq_three.mp hlen
  cases x <;> cases y <;> cases z <;>
      first
      | rfl
      | exact absurd hperm (by decide)
      | exact absurd (hdep (.train_pi_op, .train_value_op) (by decide)) (by decide)
      | exact absurd (hdep (.train_value_op, .target_update_op) (by decide)) (by decide)

theorem control_dependencies_force_update_order_witness :
    ([StepOp.train_pi_op, .train_value_op, .target_update_op] : List StepOp)
      = [.train_pi_op, .train_value_op, .target_update_op] :=
  control_dependencies_force_update_order _ (by constructor <;> decide)

theorem random_step_count_eq (start_steps T : Nat) :
    random_step_count start_steps T = min T (start_steps + 1) := by
  induction T with
  | zero => rfl
  | succ T ih =>
    unfold random_step_count at ih ⊢
    rw [List.range_succ, List.filter_append, List.length_append, ih]
    by_cases h : T > start_steps
    · have ha : action_source start_steps T = .policySample := if_pos h
      simp [ha]
      omega
    · have ha : action_source start_steps T = .uniformRandom := if_neg h
      simp [ha]
      omega

/-- C7 (the code contradicts its own docstring): the threshold test at
line 263 is `t > start_steps`, so the uniform-random branch is still taken at
step `t = start_steps` itself.  With `start_steps = 3`, step 3 is random, and
10 total steps contain 4 random-action steps, not 3: the code performs
`start_steps + 1` random steps (`random_step_count_eq`), one more than the
docstring's "Number of steps for uniform-random action selection, before
running real policy" and than the claim's hard threshold of exactly
`start_steps`. -/
theorem start_steps_off_by_one :
    action_source 3 3 = .uniformRandom ∧
    random_step_count 3 10 = 4 ∧
    random_step_count 3 4 = 4 := by
  refine ⟨?_, ?_, ?_⟩ <;> decide

/-- C8 counterexample: a batch with `logp_pi = [2, 0]` in a 1-D action space
(`target_entropy = -1`) has `logp_pi + target_entropy ≠ 0` in every entry,
yet the per-batch mean of the stopped bracket is zero, the gradient of
`alpha_loss` in `log_alpha` vanishes, and one alpha-update step leaves
`log_alpha` at its initial value `1.0`. -/
theorem alpha_step_mean_cancellation :
    (∀ lp ∈ [(2 : ℚ), 0], lp + target_entropy 1 ≠ 0) ∧
    log_alpha_after_one_step [2, 0] (target_entropy 1) (5 / 1000000) (1 / 100)
      (1 / 100000000) = log_alpha_init := by
  constructor
  · intro lp hlp
    fin_cases hlp <;> norm_num [target_entropy]
  · norm_num [log_alpha_after_one_step, adam_first_delta, alpha_grad, mean,
      target_entropy, log_alpha_init]

/-- C8 (amended): with `alpha = 'auto'`, `log_alpha` starts at `1.0`;
`alpha_loss` is the mean of `-log_alpha * (logp_pi + target_entropy)` with
the bracket held constant, i.e. linear in `log_alpha` with slope
`alpha_grad`; and after one Adam step (any learning rate `lr > 0`, any
`√(1-β₂) = s > 0`, any `ε > 0`), `log_alpha` has changed from `1.0` whenever
the batch mean of `logp_pi + target_entropy` is nonzero (equivalently,
whenever the gradient `alpha_grad ≠ 0`) — entrywise nonzero deviations are
not sufficient when they cancel in the mean. -/
theorem alpha_auto_update_spec (act_dim : Nat) (la : ℚ) (logp_pi : List ℚ)
    (lr s eps : ℚ) (hlr : 0 < lr) (hs : 0 < s) (heps : 0 < eps) :
    log_alpha_init = 1 ∧
    alpha_loss la logp_pi (target_entropy act_dim)
      = la * alpha_grad logp_pi (target_entropy act_dim) ∧
    (alpha_grad logp_pi (target_entropy act_dim) ≠ 0 →
      log_alpha_after_one_step logp_pi (target_entropy act_dim) lr s eps
        ≠ log_alpha_init) := by
  refine ⟨rfl, ?_, ?_⟩
  · unfold alpha_loss alpha_grad mean
    rw [show (fun lp => -la * (lp + target_entropy act_dim))
          = fun lp => la * -(lp + target_entropy act_dim) from by funext lp; ring]
    rw [List.sum_map_mul_left]
    simp only [List.length_map]
    rw [mul_div_assoc]
  · intro hg
    have hnum : lr * s * alpha_grad logp_pi (target_entropy act_dim) ≠ 0 :=
      mul_ne_zero (mul_ne_zero hlr.ne' hs.ne') hg
    have hden : 0 < s * |alpha_grad logp_pi (target_entropy act_dim)| + eps := by
      have := mul_nonneg hs.le (abs_nonneg (alpha_grad logp_pi (target_entropy act_dim)))
      linarith
    have hdelta : adam_first_delta lr s eps (alpha_grad logp_pi (target_entropy act_dim)) ≠ 0 :=
      div_ne_zero hnum hden.ne'
    unfold log_alpha_after_one_step
    intro hEq
    exact hdelta (sub_eq_self.mp hEq)

theorem alpha_auto_update_spec_witness :
    log_alpha_after_one_step [0] (target_entropy 1) (1 / 1000) (1 / 100)
      (1 / 100000000) ≠ log_alpha_init := by
  have h := alpha_auto_update_spec 1 2 [0] (1 / 1000) (1 / 100) (1 / 100000000)
    (by norm_num) (by norm_num) (by norm_num)
  exact h.2.2 (by norm_num [alpha_grad, mean, target_entropy])

theorem count_flatten_replicate (n : Nat) (l : List Event) (e : Event) :
    ((List.replicate n l).flatten).count e = n * l.count e := by
  induction n with
  | zero => simp
  | succ n ih =>
    rw [List.replicate_succ, List.flatten_cons, List.count_append, ih, Nat.succ_mul]
    omega

/-- C6: whenever the episode ends during a main-loop iteration — the
environment returns `done = true`, or the incremented episode length reaches
`max_ep_len_train` — the iteration performs exactly `ep_len` gradient-update
cycles (`ep_len` being the number of steps of the just-finished episode),
each cycle drawing exactly one fresh batch from the replay buffer, and ends
by resetting the environment (the reset is the last effect, and the
post-state starts a fresh episode at `env.reset` with `ep_len = 0`). -/
theorem episode_end_training_burst (env : EnvModel) (ag : AgentModel)
    (start_steps max_ep_len_train t : Nat) (s : LoopState)
    (hend : (env.step s.o (if t > start_steps then ag.get_action s.o
              else ag.sample t)).2.2 = true ∨ s.ep_len + 1 = max_ep_len_train) :
    (loopBody env ag start_steps max_ep_len_train t s).2.count .gradientUpdateCycle
      = s.ep_len + 1 ∧
    (loopBody env ag start_steps max_ep_len_train t s).2.count .sampleBatch
      = s.ep_len + 1 ∧
    (loopBody env ag start_steps max_ep_len_train t s).2.getLast? = some .envReset ∧
    (loopBody env ag start_steps max_ep_len_train t s).1.ep_len = 0 ∧
    (loopBody env ag start_steps max_ep_len_train t s).1.o = env.reset ∧
    (loopBody env ag start_steps max_ep_len_train t s).1.ep_ret = 0 := by
  have hcond : ((env.step s.o (if t > start_steps then ag.get_action s.o
      else ag.sample t)).2.2 || (s.ep_len + 1 == max_ep_len_train)) = true := by
    rcases hend with h | h
    · simp [h]
    · simp [h]
  unfold loopBody
  rw [if_pos hcond]
  refine ⟨?_, ?_, ?_, rfl, rfl, rfl⟩
  · rw [List.count_append, List.count_append, count_flatten_replicate]
    simp [cycleTrace]
  · rw [List.count_append, List.count_append, count_flatten_replicate]
    simp [cycleTrace]
  · rw [List.getLast?_concat]

theorem episode_end_training_burst_witness :
    (loopBody envWit agWit 0 10 5 sWitLoop).2.count .gradientUpdateCycle = 3 ∧
    (loopBody envWit agWit 0 10 5 sWitLoop).2.count .sampleBatch = 3 ∧
    (loopBody envWit agWit 0 10 5 sWitLoop).1.ep_len = 0 := by
  have h := episode_end_training_burst envWit agWit 0 10 5 sWitLoop (Or.inl rfl)
  exact ⟨h.1, h.2.1, h.2.2.2.1⟩

end SAC1
